import Mathlib

/-
Verification of the lmdb-table message-queue engine.

The development shallowly embeds the TypeScript sources:
- `transaction.ts` : the `Transaction` facade over an LMDB write/read
  transaction (key-size guard, closed/reset guards, read-only guard);
- the `Queue` engine (`Message`, `QueueOptions`, `defaultConfig`,
  `Queue.send`, `Queue.receive`, `Queue.ack`).

The ordered LMDB keyspace that backs a queue is modelled as an
association list sorted by its signed integer key; the cursor operations
used by the engine (`goToLast`, `goToRange(0)`, `goToNext`) become the
corresponding first/next/last searches on that list.  The dedup index is
a second association list from string keys to timestamps.  Wall-clock
timestamps are passed explicitly (`now : Int`), mirroring `Date.now()`.

An engine operation opens its own write transaction and either commits
it, aborts it, or — when the TypeScript code throws or returns without
closing the transaction — leaks it open; the `TxnFinal` field of an
operation's result records which of the three happened.  Writes of a
transaction that was not committed are discarded, so the `state` field
of a result is the externally visible store after the operation.
-/

set_option autoImplicit false

set_option maxRecDepth 8192

namespace LmdbTable

/-- Errors raised by the embedded code, one constructor per distinct
`throw new Error(...)` site that the claims mention. -/
inductive Err where
  /-- Key size exceeds the maximum length (`assertKeySize`). -/
  | keySize
  /-- The transaction is already closed (`assertRead`). -/
  | txnClosed
  /-- The transaction is read-only (`assertWrite`). -/
  | readOnly
  /-- This queue does not support deduplication (`Queue.send`). -/
  | dedupUnsupported
deriving DecidableEq, Repr

/-- MAX_KEY_SIZE from transaction.ts. -/
def MAX_KEY_SIZE : Nat := 511

/-- Embeds `assertKeySize` from transaction.ts for string keys: a string
key is rejected when `key.length * 2 > MAX_KEY_SIZE` (JavaScript string
length times two bytes per UTF-16 code unit).  Integer keys are not
inspected by `assertKeySize` and never fail it. -/
def assertKeySizeString (key : String) : Except Err Unit :=
  if MAX_KEY_SIZE < key.length * 2 then Except.error Err.keySize else Except.ok ()

/-- State of a `Transaction` object from transaction.ts: the three flags
the class keeps next to the raw LMDB handle. -/
structure Transaction where
  isWriteable : Bool
  isClosed : Bool
  isReset : Bool
deriving DecidableEq, Repr

/-- Embeds the `Transaction` constructor: `beginTxn` with
`readOnly: !options?.writeable`; both flags start false. -/
def Transaction.beginTxn (writeable : Bool) : Transaction :=
  { isWriteable := writeable, isClosed := false, isReset := false }

/-- Embeds `Transaction.commit`: the underlying commit, then `isClosed = true`. -/
def Transaction.commit (t : Transaction) : Transaction :=
  { t with isClosed := true }

/-- Embeds `Transaction.abort`: the underlying abort, then `isClosed = true`. -/
def Transaction.abort (t : Transaction) : Transaction :=
  { t with isClosed := true }

/-- Embeds `Transaction.reset`: the underlying reset, then `isReset = true`. -/
def Transaction.reset (t : Transaction) : Transaction :=
  { t with isReset := true }

/-- Embeds `Transaction.renew`: the underlying renew, then `isReset = false`. -/
def Transaction.renew (t : Transaction) : Transaction :=
  { t with isReset := false }

/-- Embeds `Transaction.assertRead`: first `assertKeySize(key)`, then the
closed/reset check (`isReset || isClosed` throws "already closed"). -/
def Transaction.assertRead (t : Transaction) (key : String) : Except Err Unit :=
  match assertKeySizeString key with
  | Except.error e => Except.error e
  | Except.ok _ =>
    if t.isReset || t.isClosed then Except.error Err.txnClosed else Except.ok ()

/-- Embeds `Transaction.assertWrite`: `assertRead`, then the read-only check. -/
def Transaction.assertWrite (t : Transaction) (key : String) : Except Err Unit :=
  match t.assertRead key with
  | Except.error e => Except.error e
  | Except.ok _ =>
    if t.isWriteable then Except.ok () else Except.error Err.readOnly

/-- String-keyed keyspace used to model the store a `Transaction`
operates on (the typed get/put variants in transaction.ts all share the
same `assertRead`/`assertWrite` guards; strings are representative). -/
abbrev StrStore := List (String × String)

/-- Lookup in a string keyspace. -/
def StrStore.get : StrStore → String → Option String
  | [], _ => none
  | (k', v) :: rest, k => if k = k' then some v else StrStore.get rest k

/-- Insert or replace in a string keyspace. -/
def StrStore.put : StrStore → String → String → StrStore
  | [], k, v => [(k, v)]
  | (k', v') :: rest, k, v =>
    if k = k' then (k, v) :: rest else (k', v') :: StrStore.put rest k v

/-- Delete from a string keyspace. -/
def StrStore.del : StrStore → String → StrStore
  | [], _ => []
  | (k', v') :: rest, k =>
    if k = k' then StrStore.del rest k else (k', v') :: StrStore.del rest k

/-- Embeds `Transaction.getString`: `assertRead(key)` then the raw read.
A failed guard propagates its error before the store is consulted. -/
def Transaction.getString (t : Transaction) (s : StrStore) (key : String) :
    Except Err (Option String) :=
  match t.assertRead key with
  | Except.error e => Except.error e
  | Except.ok _ => Except.ok (StrStore.get s key)

/-- Embeds `Transaction.putString`: `assertWrite(key)` then the raw
write; a failed guard propagates its error and the store is untouched
(the returned store exists only in the success case). -/
def Transaction.putString (t : Transaction) (s : StrStore) (key value : String) :
    Except Err StrStore :=
  match t.assertWrite key with
  | Except.error e => Except.error e
  | Except.ok _ => Except.ok (StrStore.put s key value)

/-- Embeds `Transaction.del`: `assertWrite(key)` then the raw delete. -/
def Transaction.del (t : Transaction) (s : StrStore) (key : String) :
    Except Err StrStore :=
  match t.assertWrite key with
  | Except.error e => Except.error e
  | Except.ok _ => Except.ok (StrStore.del s key)

/-- Message record from the queue module, field for field.  `id` is a
signed integer key (positive live, negative dead-lettered); `enqueued`
and `received` are millisecond timestamps; `dedupKey` is the optional
parameter of `send`. -/
structure Message where
  id : Int
  enqueued : Int
  received : Int
  numReceives : Nat
  body : String
  dedupKey : Option String
deriving DecidableEq, Repr

/-- The queue's single ordered keyspace: an association list of
(signed id, Message) kept sorted by ascending key, exactly the order an
LMDB cursor traverses. -/
abbrev MsgStore := List (Int × Message)

/-- Lookup by key (LMDB `get`). -/
def MsgStore.get : MsgStore → Int → Option Message
  | [], _ => none
  | (k', m) :: rest, k => if k = k' then some m else MsgStore.get rest k

/-- Insert or replace, preserving the ascending key order (LMDB `put`). -/
def MsgStore.put : MsgStore → Int → Message → MsgStore
  | [], k, m => [(k, m)]
  | (k', v) :: rest, k, m =>
    if k < k' then (k, m) :: (k', v) :: rest
    else if k = k' then (k, m) :: rest
    else (k', v) :: MsgStore.put rest k m

/-- Delete by key (LMDB `del`). -/
def MsgStore.del : MsgStore → Int → MsgStore
  | [], _ => []
  | (k', v) :: rest, k =>
    if k = k' then MsgStore.del rest k else (k', v) :: MsgStore.del rest k

/-- Key of the last entry in cursor order, i.e. `cursor.goToLast()`. -/
def MsgStore.lastKey : MsgStore → Option Int
  | [] => none
  | [(k, _)] => some k
  | _ :: rest => MsgStore.lastKey rest

/-- First entry whose key is `≥ target`, i.e. `cursor.goToRange(target)`
followed by `getCurrentString()`. -/
def MsgStore.firstEntryGE : MsgStore → Int → Option (Int × Message)
  | [], _ => none
  | (k', m) :: rest, t =>
    if t ≤ k' then some (k', m) else MsgStore.firstEntryGE rest t

/-- First entry whose key is strictly greater than the cursor position,
i.e. `cursor.goToNext()` followed by `getCurrentString()`.  LMDB steps
past an entry deleted at the cursor position, which this search models. -/
def MsgStore.nextEntryAfter : MsgStore → Int → Option (Int × Message)
  | [], _ => none
  | (k', m) :: rest, k =>
    if k < k' then some (k', m) else MsgStore.nextEntryAfter rest k

/-- A store is well formed when its keys are strictly ascending, which
is what the sorted LMDB keyspace guarantees. -/
def MsgStore.Sorted (s : MsgStore) : Prop :=
  List.Pairwise (fun a b : Int × Message => a.1 < b.1) s

/-- Dedup index keyspace: dedup key mapped to its enqueue timestamp. -/
abbrev Index := List (String × Int)

/-- Membership test for the dedup index: models the truthiness test
`if (this.index.getString(key))` on an existing entry. -/
def Index.mem : Index → String → Bool
  | [], _ => false
  | (k', _) :: rest, k => if k = k' then true else Index.mem rest k

/-- Insert or replace in the dedup index (`putNumber(key, now)`). -/
def Index.put : Index → String → Int → Index
  | [], k, v => [(k, v)]
  | (k', v') :: rest, k, v =>
    if k = k' then (k, v) :: rest else (k', v') :: Index.put rest k v

/-- Delete from the dedup index (`index.del(key)`). -/
def Index.del : Index → String → Index
  | [], _ => []
  | (k', v') :: rest, k =>
    if k = k' then Index.del rest k else (k', v') :: Index.del rest k

/-- JavaScript truthiness of an optional string: present and nonempty. -/
def strTruthy : Option String → Bool
  | none => false
  | some s => !s.isEmpty

/-- JavaScript `a || b` on an optional string and a fallback string. -/
def strOr : Option String → String → String
  | none, b => b
  | some s, b => if s.isEmpty then b else s

/-- QueueOptions from the queue module; absent fields are `none`. -/
structure QueueOptions where
  name : String
  dedup : Option Bool := none
  requireAck : Option Bool := none
  visibilityTimeoutSecs : Option Nat := none
  maxReceives : Option Nat := none
  maxRetentionHours : Option Nat := none
deriving DecidableEq, Repr

/-- QueueConfig, the fully defaulted configuration. -/
structure QueueConfig where
  name : String
  dedup : Bool
  requireAck : Bool
  visibilityTimeoutSecs : Nat
  maxReceives : Nat
  maxRetentionHours : Nat
deriving DecidableEq, Repr

/-- defaultConfig from the queue module: name 'queue', dedup true,
requireAck true, visibilityTimeoutSecs 360, maxReceives 3,
maxRetentionHours 72. -/
def defaultConfig : QueueConfig :=
  { name := "queue", dedup := true, requireAck := true
    visibilityTimeoutSecs := 360, maxReceives := 3, maxRetentionHours := 72 }

/-- Embeds `Object.assign({}, defaultConfig, options)`: a field present
in the options overrides the default. -/
def mergeConfig (o : QueueOptions) : QueueConfig :=
  { name := o.name
    dedup := o.dedup.getD defaultConfig.dedup
    requireAck := o.requireAck.getD defaultConfig.requireAck
    visibilityTimeoutSecs := o.visibilityTimeoutSecs.getD defaultConfig.visibilityTimeoutSecs
    maxReceives := o.maxReceives.getD defaultConfig.maxReceives
    maxRetentionHours := o.maxRetentionHours.getD defaultConfig.maxRetentionHours }

/-- A Queue object as built by the constructor: the merged config
together with whether `this.index` was created.  The constructor tests
the raw `options.dedup` (not the merged config), so the index exists
exactly when `options.dedup` is truthy. -/
structure Queue where
  config : QueueConfig
  hasIndex : Bool
deriving DecidableEq, Repr

/-- Embeds the `Queue` constructor. -/
def Queue.ofOptions (o : QueueOptions) : Queue :=
  { config := mergeConfig o, hasIndex := o.dedup.getD false }

/-- The two keyspaces one queue owns: the message table and the dedup
index table (the latter meaningful only when the queue has an index). -/
structure EngineState where
  queue : MsgStore
  index : Index
deriving DecidableEq, Repr

/-- Final state of the write transaction an engine operation opened:
committed, aborted, or left open because the code threw or returned
without closing it. -/
inductive TxnFinal where
  | committed
  | aborted
  | leakedOpen
deriving DecidableEq, Repr

/-- Result of one engine operation: the externally visible store state
afterwards (uncommitted writes discarded), the fate of the operation's
own write transaction, and its return value or thrown error. -/
structure OpResult (α : Type) where
  state : EngineState
  txn : TxnFinal
  out : Except Err α
deriving Repr

/-- The committing tail of `Queue.send` (lines 76-102): position the
cursor on the last key of the whole table (`goToLast() || 0`), add one,
build the Message with `received = 0` and `numReceives = 0`, put it, put
the dedup entry when the index exists, and commit returning true. -/
def sendPut (q : Queue) (st : EngineState) (now : Int)
    (body : String) (dedupKey : Option String) : OpResult Bool :=
  let id : Int := (st.queue.lastKey).getD 0 + 1
  let msg : Message :=
    { id := id, enqueued := now, received := 0, numReceives := 0
      body := body, dedupKey := dedupKey }
  let queue1 := st.queue.put id msg
  let index1 := if q.hasIndex then st.index.put (strOr dedupKey body) now else st.index
  { state := { queue := queue1, index := index1 }, txn := TxnFinal.committed
    out := Except.ok true }

/-- Embeds `Queue.send`.  After `beginWrite`, when the index exists: a
truthy `dedupKey` throws 'This queue does not support deduplication'
with the transaction still open; otherwise `key = dedupKey || body` is
looked up in the index (the lookup enforces `assertKeySize(key)`), a hit
returns false without aborting, and on a miss the message is written and
committed.  Without an index the dedup block is skipped entirely. -/
def Queue.send (q : Queue) (st : EngineState) (now : Int)
    (body : String) (dedupKey : Option String) : OpResult Bool :=
  if q.hasIndex then
    if strTruthy dedupKey then
      { state := st, txn := TxnFinal.leakedOpen, out := Except.error Err.dedupUnsupported }
    else
      match assertKeySizeString (strOr dedupKey body) with
      | Except.error e => { state := st, txn := TxnFinal.leakedOpen, out := Except.error e }
      | Except.ok _ =>
        if st.index.mem (strOr dedupKey body) then
          { state := st, txn := TxnFinal.leakedOpen, out := Except.ok false }
        else sendPut q st now body dedupKey
  else sendPut q st now body dedupKey

/-- The dead-letter transition inside `Queue.receive` (lines 143-146):
delete the record at `message.id`, negate the id on the record, and
re-insert the otherwise unchanged record at the negated key. -/
def dlqTransition (store : MsgStore) (msg : Message) : MsgStore × Message :=
  let store1 := store.del msg.id
  let msg1 : Message := { msg with id := -msg.id }
  (store1.put msg1.id msg1, msg1)

/-- One classification of the scan loop in `Queue.receive`: a message
with `received == 0` is selectable; one whose visibility timeout has
expired is dead-lettered when `numReceives >= maxReceives` and
selectable otherwise; a still-leased message is skipped.  Returns the
possibly updated store and the loop's `valid` flag. -/
def classifyStep (q : Queue) (now : Int) (store : MsgStore) (msg : Message) :
    MsgStore × Bool :=
  if msg.received = 0 then (store, true)
  else if (q.config.visibilityTimeoutSecs : Int) * 1000 < now - msg.received then
    if q.config.maxReceives ≤ msg.numReceives then ((dlqTransition store msg).1, false)
    else (store, true)
  else (store, false)

/-- The `while (!valid)` loop of `Queue.receive`, verbatim: classify the
current message, then unconditionally advance the cursor; a failed
advance commits and returns null even when `valid` was just set; an
exit with `valid` set delivers the entry the cursor advanced TO, after
incrementing its `numReceives`, stamping `received = now`, and writing
it back under its own id (the `requireAck` path).  Fuel bounds the
recursion; callers pass more fuel than the scan can consume. -/
def receiveLoop (q : Queue) (now : Int) :
    Nat → MsgStore → Int → Message → MsgStore × Option Message
  | 0, store, _, _ => (store, none)
  | Nat.succ fuel, store, pos, msg =>
    let cls := classifyStep q now store msg
    match MsgStore.nextEntryAfter cls.1 pos with
    | none => (cls.1, none)
    | some entry =>
      if entry.1 = 0 then (cls.1, none)
      else if cls.2 then
        let fin : Message :=
          { entry.2 with numReceives := entry.2.numReceives + 1, received := now }
        (cls.1.put fin.id fin, some fin)
      else receiveLoop q now fuel cls.1 entry.1 entry.2

/-- Embeds `Queue.receive`.  Seek to the first key `>= 0`; a missing (or
falsy zero) key aborts and returns null.  When `requireAck` is false the
first live entry is deleted (with its dedup entry) and returned with its
delivery fields bumped, with no visibility classification.  Otherwise
the scan loop runs and its outcome is committed. -/
def Queue.receive (q : Queue) (st : EngineState) (now : Int) :
    OpResult (Option Message) :=
  match st.queue.firstEntryGE 0 with
  | none => { state := st, txn := TxnFinal.aborted, out := Except.ok none }
  | some entry =>
    if entry.1 = 0 then
      { state := st, txn := TxnFinal.aborted, out := Except.ok none }
    else if q.config.requireAck then
      let res := receiveLoop q now (st.queue.length + 1) st.queue entry.1 entry.2
      { state := { queue := res.1, index := st.index }, txn := TxnFinal.committed
        out := Except.ok res.2 }
    else
      let dk := strOr entry.2.dedupKey entry.2.body
      let index1 := if q.hasIndex then st.index.del dk else st.index
      let queue1 := st.queue.del entry.2.id
      let fin : Message :=
        { entry.2 with numReceives := entry.2.numReceives + 1, received := now }
      { state := { queue := queue1, index := index1 }, txn := TxnFinal.committed
        out := Except.ok (some fin) }

/-- Embeds `Queue.ack`: one write transaction deleting `message.id` from
the queue and, when the index exists, `message.dedupKey || message.body`
from the index; then commit. -/
def Queue.ack (q : Queue) (st : EngineState) (msg : Message) : OpResult Unit :=
  let queue1 := st.queue.del msg.id
  let index1 := if q.hasIndex then st.index.del (strOr msg.dedupKey msg.body) else st.index
  { state := { queue := queue1, index := index1 }, txn := TxnFinal.committed
    out := Except.ok () }

/-- A 256-character string whose UTF-16 encoding is 512 bytes, one byte
over the 511-byte key ceiling. -/
def longBody256 : String := String.mk (List.replicate 256 'a')

/-- A 300-character dedup key, well over the key ceiling. -/
def longDedupKey : String := String.mk (List.replicate 300 'k')

/-- A 256-character transaction key, one UTF-16 byte over the ceiling. -/
def longTxnKey : String := String.mk (List.replicate 256 'b')

/-- Looking up the key just written by `put` yields the written record. -/
theorem MsgStore.get_put_self (s : MsgStore) (k : Int) (m : Message) :
    (s.put k m).get k = some m := by
  induction s with
  | nil => simp [MsgStore.put, MsgStore.get]
  | cons a t ih =>
    obtain ⟨k', v⟩ := a
    by_cases h1 : k < k'
    · simp [MsgStore.put, h1, MsgStore.get]
    · by_cases h2 : k = k'
      · simp [MsgStore.put, h1, h2, MsgStore.get]
      · simp [MsgStore.put, h1, h2, MsgStore.get, ih]

/-- Keys other than the one written by `put` are unchanged. -/
theorem MsgStore.get_put_ne (s : MsgStore) (k j : Int) (m : Message) (h : j ≠ k) :
    (s.put k m).get j = s.get j := by
  induction s with
  | nil => simp [MsgStore.put, MsgStore.get, h]
  | cons a t ih =>
    obtain ⟨k', v⟩ := a
    by_cases h1 : k < k'
    · simp [MsgStore.put, h1, MsgStore.get, h]
    · by_cases h2 : k = k'
      · subst h2
        simp [MsgStore.put, h1, MsgStore.get, h]
      · by_cases h3 : j = k'
        · simp [MsgStore.put, h1, h2, MsgStore.get, h3]
        · simp [MsgStore.put, h1, h2, MsgStore.get, h3, ih]

/-- Looking up a deleted key yields nothing. -/
theorem MsgStore.get_del_self (s : MsgStore) (k : Int) : (s.del k).get k = none := by
  induction s with
  | nil => simp [MsgStore.del, MsgStore.get]
  | cons a t ih =>
    obtain ⟨k', v⟩ := a
    by_cases h1 : k = k'
    · subst h1
      simp [MsgStore.del, ih]
    · simp [MsgStore.del, h1, MsgStore.get, ih]

/-- On a sorted store the cursor's last entry carries the maximal key. -/
theorem MsgStore.lastKey_max : ∀ (s : MsgStore), s.Sorted →
    ∀ p ∈ s, ∃ m, s.lastKey = some m ∧ p.1 ≤ m := by
  intro s
  induction s with
  | nil => intro _ p hp; cases hp
  | cons a t ih =>
    intro hs p hp
    cases t with
    | nil =>
      rcases List.mem_cons.mp hp with h | h
      · exact ⟨a.1, by simp [MsgStore.lastKey], by simp [h]⟩
      · cases h
    | cons b t2 =>
      have hs2 : MsgStore.Sorted (b :: t2) := (List.pairwise_cons.mp hs).2
      have hrel : ∀ x ∈ b :: t2, a.1 < x.1 := (List.pairwise_cons.mp hs).1
      rcases List.mem_cons.mp hp with h | h
      · obtain ⟨m, hm, hbm⟩ := ih hs2 b (List.mem_cons_self b t2)
        refine ⟨m, by simpa [MsgStore.lastKey] using hm, ?_⟩
        subst h
        exact le_of_lt (lt_of_lt_of_le (hrel b (List.mem_cons_self b t2)) hbm)
      · obtain ⟨m, hm, hpm⟩ := ih hs2 p h
        exact ⟨m, by simpa [MsgStore.lastKey] using hm, hpm⟩

/-- A key just written to the dedup index is a member of the index. -/
theorem Index.mem_put_self (idx : Index) (k : String) (v : Int) :
    (idx.put k v).mem k = true := by
  induction idx with
  | nil => simp [Index.put, Index.mem]
  | cons a t ih =>
    obtain ⟨k', v'⟩ := a
    by_cases h1 : k = k'
    · simp [Index.put, h1, Index.mem]
    · simp [Index.put, h1, Index.mem, ih]

/-- Claim C1: for a queue with requireAck = true, receive() is claimed
to return the first selectable live message in ascending id order, so
that after a single send("x") on an empty queue receive() yields a
message with body "x", numReceives 1 and received > 0.  The embedded
code refutes this round trip: the scan loop advances the cursor even
after marking the current message valid, so with exactly one live
message the advance fails and receive() commits and returns null,
leaving the stored message untouched with numReceives still 0. -/
theorem C1_round_trip_receive_returns_none :
    (let q := Queue.ofOptions { name := "q" }
     let r1 := q.send { queue := [], index := [] } 100 "x" none
     let r2 := q.receive r1.state 200
     r1.out = Except.ok true ∧
     r1.state.queue.get 1 = some (Message.mk 1 100 0 0 "x" none) ∧
     r2.out = Except.ok none ∧
     r2.state = r1.state) := by
  refine ⟨rfl, rfl, rfl, rfl⟩

/-- Claim C2: for a dedup-enabled queue, send(body, dedupKey) with an
explicitly supplied dedup key is claimed to succeed.  The embedded code
refutes this: when the index exists, a truthy dedupKey makes send throw
'This queue does not support deduplication' before any write, with the
write transaction left open. -/
theorem C2_send_with_dedup_key_throws :
    (let q := Queue.ofOptions { name := "q", dedup := some true }
     let r := q.send { queue := [], index := [] } 5 "x" (some "k")
     r.out = Except.error Err.dedupUnsupported ∧
     r.state = { queue := [], index := [] }) := by
  refine ⟨rfl, rfl⟩

/-- Claim C3, counterexample: live ids are claimed never to be reused
after deletion.  In the embedded code send assigns (last key of the
whole table) + 1, so after send "a" (id 1), send "b" (id 2), ack of the
id-2 message and a further send "c", the id 2 is assigned again to the
new message even though it had been used and removed. -/
theorem C3_counterexample_id_reuse :
    (let q := Queue.ofOptions { name := "q" }
     let r1 := q.send { queue := [], index := [] } 10 "a" none
     let r2 := q.send r1.state 20 "b" none
     let r3 := q.ack r2.state (Message.mk 2 20 0 0 "b" none)
     let r4 := q.send r3.state 30 "c" none
     r2.state.queue.get 2 = some (Message.mk 2 20 0 0 "b" none) ∧
     r3.state.queue.get 2 = none ∧
     r4.out = Except.ok true ∧
     r4.state.queue.get 2 = some (Message.mk 2 30 0 0 "c" none)) := by
  refine ⟨rfl, rfl, rfl, rfl⟩

/-- Equality of the two if branches: with `hasIndex = false` the send
path of the queue reduces to the committing tail. -/
theorem send_no_index (q : Queue) (st : EngineState) (now : Int)
    (body : String) (dk : Option String) (hq : q.hasIndex = false) :
    q.send st now body dk = sendPut q st now body dk := by
  simp [Queue.send, hq]

/-- Claim C3, amended: a successful send assigns the id
(last key of the whole table, or 0 when the table is empty) + 1, which
is strictly greater than every key currently present in the (sorted)
table — live or dead-lettered — and stores the new message under that
id with received = 0 and numReceives = 0.  An id removed from the live
partition can be assigned again later (see the counterexample), and
when only dead-lettered keys remain the assigned id is not 1. -/
theorem C3_send_assigns_last_key_plus_one (q : Queue) (st : EngineState) (now : Int)
    (body : String) (dk : Option String) (hs : st.queue.Sorted)
    (hok : (q.send st now body dk).out = Except.ok true) :
    (∀ p ∈ st.queue, p.1 < (st.queue.lastKey).getD 0 + 1) ∧
    (q.send st now body dk).state.queue.get ((st.queue.lastKey).getD 0 + 1)
      = some (Message.mk ((st.queue.lastKey).getD 0 + 1) now 0 0 body dk) := by
  constructor
  · intro p hp
    obtain ⟨m, hm, hpm⟩ := MsgStore.lastKey_max st.queue hs p hp
    rw [hm]
    simpa using lt_of_le_of_lt hpm (by omega)
  · have hput : (sendPut q st now body dk).state.queue.get
        ((st.queue.lastKey).getD 0 + 1)
        = some (Message.mk ((st.queue.lastKey).getD 0 + 1) now 0 0 body dk) := by
      simpa [sendPut] using
        MsgStore.get_put_self st.queue ((st.queue.lastKey).getD 0 + 1)
          (Message.mk ((st.queue.lastKey).getD 0 + 1) now 0 0 body dk)
    by_cases hq : q.hasIndex
    · by_cases ht : strTruthy dk
      · simp [Queue.send, hq, ht] at hok
      · cases hks : assertKeySizeString (strOr dk body) with
        | error e => simp [Queue.send, hq, ht, hks] at hok
        | ok u =>
          by_cases hmem : st.index.mem (strOr dk body)
          · simp [Queue.send, hq, ht, hks, hmem] at hok
          · simpa [Queue.send, hq, ht, hks, hmem] using hput
    · simpa [Queue.send, hq] using hput

/-- Claim C3, witness for the amended theorem at a concrete input: a
send of "a" at time 7 on an empty sorted store assigns id 1 and stores
the fresh record there. -/
theorem C3_send_assigns_last_key_plus_one_witness :
    ((Queue.ofOptions { name := "q" }).send { queue := [], index := [] } 7 "a" none).state.queue.get 1
      = some (Message.mk 1 7 0 0 "a" none) := by
  exact (C3_send_assigns_last_key_plus_one (Queue.ofOptions { name := "q" })
    { queue := [], index := [] } 7 "a" none List.Pairwise.nil rfl).2

/-- Claim C4: a thrown engine operation is claimed to abort its own
write transaction before the error propagates.  The embedded code
refutes this: Queue.send has no try/catch, so the dedup-key throw
propagates with the write transaction never aborted (left open).  The
store is nevertheless unchanged because the throw precedes every
write. -/
theorem C4_send_throw_leaves_transaction_open :
    (let q := Queue.ofOptions { name := "q", dedup := some true }
     let r := q.send { queue := [], index := [] } 5 "x" (some "k")
     r.out = Except.error Err.dedupUnsupported ∧
     r.txn = TxnFinal.leakedOpen ∧
     r.txn ≠ TxnFinal.aborted ∧
     r.state = { queue := [], index := [] }) := by
  refine ⟨rfl, rfl, by decide, rfl⟩

/-- Claim C5: on a dedup-enabled queue, a first send of body B (whose
derived key B is within the key-size limit and not yet in the index)
returns true, and an exact repeat of the same key returns false while
leaving both the message store and the dedup index unchanged. -/
theorem C5_dedup_first_true_then_false (q : Queue) (st : EngineState)
    (t1 t2 : Int) (body : String) (hq : q.hasIndex = true)
    (hk : body.length * 2 ≤ MAX_KEY_SIZE) (hnew : st.index.mem body = false) :
    (q.send st t1 body none).out = Except.ok true ∧
    (q.send (q.send st t1 body none).state t2 body none).out = Except.ok false ∧
    (q.send (q.send st t1 body none).state t2 body none).state
      = (q.send st t1 body none).state := by
  have hsize : assertKeySizeString body = Except.ok () := by
    simp [assertKeySizeString, Nat.not_lt.mpr hk]
  have h1 : q.send st t1 body none = sendPut q st t1 body none := by
    simp [Queue.send, hq, strTruthy, hsize, hnew, strOr]
  have hmem1 : (sendPut q st t1 body none).state.index.mem body = true := by
    simp [sendPut, hq, strOr, Index.mem_put_self]
  have h2 : q.send (sendPut q st t1 body none).state t2 body none
      = { state := (sendPut q st t1 body none).state, txn := TxnFinal.leakedOpen
          out := Except.ok false } := by
    simp [Queue.send, hq, strTruthy, hsize, hmem1, strOr]
  rw [h1, h2]
  exact ⟨by simp [sendPut], rfl, rfl⟩

/-- Claim C5, witness at a concrete input: on a fresh dedup-enabled
queue, send of "x" returns true and its exact repeat returns false with
the state unchanged. -/
theorem C5_dedup_first_true_then_false_witness :
    (let q := Queue.ofOptions { name := "q", dedup := some true }
     let r1 := q.send { queue := [], index := [] } 1 "x" none
     r1.out = Except.ok true ∧
     (q.send r1.state 2 "x" none).out = Except.ok false ∧
     (q.send r1.state 2 "x" none).state = r1.state) := by
  exact C5_dedup_first_true_then_false
    (Queue.ofOptions { name := "q", dedup := some true })
    { queue := [], index := [] } 1 2 "x" rfl (by decide) rfl

/-- Claim C6: a live message that has reached numReceives ≥ maxReceives
with its visibility timeout expired is claimed to be moved to the DLQ by
the next receive() and never returned again.  The embedded code refutes
this: with maxReceives = 1, after send "a", send "b" and a receive at
t = 1000 that delivers id 2, a second receive at t = 361001 (past the
360 s default timeout) returns id 2 again with numReceives = 2 — the
scan exits on the still-available id 1 and hands back the next entry
without ever classifying it — and nothing is stored at key -2. -/
theorem C6_exhausted_message_returned_not_deadlettered :
    (let q := Queue.ofOptions { name := "q", maxReceives := some 1 }
     let r1 := q.send { queue := [], index := [] } 0 "a" none
     let r2 := q.send r1.state 0 "b" none
     let r3 := q.receive r2.state 1000
     let r4 := q.receive r3.state 361001
     r3.out = Except.ok (some (Message.mk 2 0 1000 1 "b" none)) ∧
     r3.state.queue.get 2 = some (Message.mk 2 0 1000 1 "b" none) ∧
     q.config.maxReceives ≤ 1 ∧
     ((q.config.visibilityTimeoutSecs : Int) * 1000 < 361001 - 1000) ∧
     r4.out = Except.ok (some (Message.mk 2 0 361001 2 "b" none)) ∧
     r4.state.queue.get (-2) = none) := by
  refine ⟨rfl, rfl, by decide, by decide, rfl, rfl⟩

/-- Claim C7: the dead-letter transition inside receive() changes only
the sign of the stored id — the record found at key -id afterwards is
the deleted live record with its id negated, keeping enqueued,
received, numReceives, body and dedupKey; the live key id is gone
(nonzero ids only, since -0 = 0). -/
theorem C7_dlq_transition_preserves_fields (store : MsgStore) (msg : Message)
    (h : msg.id ≠ 0) :
    (dlqTransition store msg).1.get (-msg.id) = some { msg with id := -msg.id } ∧
    (dlqTransition store msg).1.get msg.id = none ∧
    (dlqTransition store msg).2.enqueued = msg.enqueued ∧
    (dlqTransition store msg).2.received = msg.received ∧
    (dlqTransition store msg).2.numReceives = msg.numReceives ∧
    (dlqTransition store msg).2.body = msg.body ∧
    (dlqTransition store msg).2.dedupKey = msg.dedupKey := by
  refine ⟨?_, ?_, rfl, rfl, rfl, rfl, rfl⟩
  · exact MsgStore.get_put_self (store.del msg.id) (-msg.id) { msg with id := -msg.id }
  · have hne : msg.id ≠ -msg.id := by omega
    calc (dlqTransition store msg).1.get msg.id
        = (store.del msg.id).get msg.id :=
          MsgStore.get_put_ne (store.del msg.id) (-msg.id) msg.id
            { msg with id := -msg.id } hne
      _ = none := MsgStore.get_del_self store msg.id

/-- Claim C7, witness at a concrete input: dead-lettering the message
with id 1 stores the same record at key -1 and removes key 1. -/
theorem C7_dlq_transition_preserves_fields_witness :
    (dlqTransition [((1 : Int), Message.mk 1 5 6 2 "b" none)] (Message.mk 1 5 6 2 "b" none)).1.get (-1)
      = some (Message.mk (-1) 5 6 2 "b" none) := by
  exact (C7_dlq_transition_preserves_fields
    [((1 : Int), Message.mk 1 5 6 2 "b" none)] (Message.mk 1 5 6 2 "b" none) (by decide)).1

/-- Claim C8, counterexample: a send whose derived dedup key exceeds the
key-size limit is claimed to fail with a key-size error.  With an
explicitly supplied oversized dedup key the embedded send fails, but
with the does-not-support-deduplication error, thrown before any
key-size check runs. -/
theorem C8_counterexample_explicit_key_not_keysize :
    (MAX_KEY_SIZE < (strOr (some longDedupKey) "x").length * 2 ∧
     ((Queue.ofOptions { name := "q", dedup := some true }).send
        { queue := [], index := [] } 0 "x" (some longDedupKey)).out
       = Except.error Err.dedupUnsupported ∧
     Err.dedupUnsupported ≠ Err.keySize) := by
  refine ⟨by decide, rfl, by decide⟩

/-- Claim C8, amended: on a dedup-enabled queue a send without an
explicit dedup key — so the derived key falls back to the body — whose
body exceeds the 511-encoded-byte key limit fails with the key-size
error, raised by the dedup lookup before any write: the whole engine
state (message store and dedup index) is returned unchanged.  A send
with an explicit dedup key instead fails earlier with the
does-not-support-deduplication error (see the counterexample). -/
theorem C8_oversized_body_fails_keysize (q : Queue) (st : EngineState) (now : Int)
    (body : String) (hq : q.hasIndex = true)
    (hb : MAX_KEY_SIZE < body.length * 2) :
    (q.send st now body none).out = Except.error Err.keySize ∧
    (q.send st now body none).state = st := by
  have hks : assertKeySizeString body = Except.error Err.keySize := by
    simp [assertKeySizeString, hb]
  constructor
  · simp [Queue.send, hq, strTruthy, strOr, hks]
  · simp [Queue.send, hq, strTruthy, strOr, hks]

/-- Claim C8, witness for the amended theorem: a 256-character body
(512 encoded bytes) on a dedup-enabled queue makes send fail with the
key-size error and leaves the empty state unchanged. -/
theorem C8_oversized_body_fails_keysize_witness :
    ((Queue.ofOptions { name := "q", dedup := some true }).send
       { queue := [], index := [] } 0 longBody256 none).out = Except.error Err.keySize := by
  exact (C8_oversized_body_fails_keysize
    (Queue.ofOptions { name := "q", dedup := some true })
    { queue := [], index := [] } 0 longBody256 rfl (by decide)).1

/-- Claim C9, counterexample: every data operation on an already closed
transaction is claimed to throw the transaction-state error.  On a
committed transaction, a getString whose key exceeds the 511-byte limit
throws the key-size error instead, because assertRead checks the key
size before the closed flag. -/
theorem C9_counterexample_keysize_precedes_state_error :
    ((Transaction.beginTxn true).commit.getString [] longTxnKey
       = Except.error Err.keySize ∧
     Err.keySize ≠ Err.txnClosed) := by
  refine ⟨rfl, by decide⟩

/-- Claim C9, amended: for a key within the size limit, every data
operation (get, put, del) on a transaction already committed, aborted
or reset fails with the transaction-state error, and every mutating
operation (put, del) on a read-only transaction that is still open and
not reset fails with the read-only violation; in every such case the
operation returns the error without producing a store, so the store is
untouched.  For an oversized key the key-size error takes precedence
over the state check, and on a closed or reset read-only transaction
the state error takes precedence over the read-only violation. -/
theorem C9_guard_errors (t : Transaction) (s : StrStore) (k v : String)
    (hk : k.length * 2 ≤ MAX_KEY_SIZE) :
    (((t.isReset || t.isClosed) = true →
       t.getString s k = Except.error Err.txnClosed ∧
       t.putString s k v = Except.error Err.txnClosed ∧
       t.del s k = Except.error Err.txnClosed) ∧
     (t.isReset = false → t.isClosed = false → t.isWriteable = false →
       t.putString s k v = Except.error Err.readOnly ∧
       t.del s k = Except.error Err.readOnly)) := by
  have hks : assertKeySizeString k = Except.ok () := by
    simp [assertKeySizeString, Nat.not_lt.mpr hk]
  constructor
  · intro hclosed
    have hread : t.assertRead k = Except.error Err.txnClosed := by
      simp [Transaction.assertRead, hks, hclosed]
    refine ⟨?_, ?_, ?_⟩
    · simp [Transaction.getString, hread]
    · simp [Transaction.putString, Transaction.assertWrite, hread]
    · simp [Transaction.del, Transaction.assertWrite, hread]
  · intro hreset hopen hro
    have hwrite : t.assertWrite k = Except.error Err.readOnly := by
      simp [Transaction.assertWrite, Transaction.assertRead, hks, hreset, hopen, hro]
    exact ⟨by simp [Transaction.putString, hwrite], by simp [Transaction.del, hwrite]⟩

/-- Claim C9, witness at concrete inputs: a committed writeable
transaction rejects getString with the transaction-state error, and a
fresh read-only transaction rejects putString with the read-only
violation. -/
theorem C9_guard_errors_witness :
    ((Transaction.beginTxn true).commit.getString [] "a"
       = Except.error Err.txnClosed ∧
     (Transaction.beginTxn false).putString [] "a" "v"
       = Except.error Err.readOnly) := by
  constructor
  · exact ((C9_guard_errors (Transaction.beginTxn true).commit [] "a" "v"
      (by decide)).1 (by decide)).1
  · exact (((C9_guard_errors (Transaction.beginTxn false) [] "a" "v"
      (by decide)).2 rfl rfl rfl).1)

/-- Claim C10: deduplication is active exactly when the constructor's
options carry a truthy dedup field.  With dedup absent from the options
the merged config still records dedup = true (the default), yet no
index table is created, and send — which keys its dedup block on the
index's existence — performs no duplicate suppression: it returns true
for every state, body and dedup key, repeats included. -/
theorem C10_dedup_active_iff_option_truthy (nm : String) (st : EngineState)
    (now : Int) (body : String) (dk : Option String) :
    ((Queue.ofOptions { name := nm }).config.dedup = true ∧
     (Queue.ofOptions { name := nm }).hasIndex = false ∧
     ((Queue.ofOptions { name := nm }).send st now body dk).out = Except.ok true) := by
  refine ⟨rfl, rfl, rfl⟩

end LmdbTable
